import Mathlib

/-!
Shallow embedding of the movie-watchlist recommendation API (Go + MongoDB).

The embedding covers the two specified subsystems:

* the movie metadata cache (`MovieRepository.FindByIMDbID`,
  `MovieRepository.GetOrCreateByIMDbID`, `MovieService.GetMovieDetails`),
* the recommendation engine (`RecommendationRepository.GetHighRatedGenres`,
  `GetRatedMovieIDs`, `GetWatchlistMovieIDs`, `GetMoviesToExclude`,
  `GetMoviesByGenreExcludingIDs`, and `RecommendationService.GetRecommendations`
  with its genre loop, fallback loop and `limitResults`).

MongoDB collections are modelled as Lean lists in insertion order.  A find
returns the matching documents in collection order; an aggregation pipeline is
modelled stage by stage over that list.  MongoDB leaves the output order of
`$group` and the relative order of `$sort` ties unspecified; the executable
model fixes one admissible linearization (group keys in first-encounter
order, `$sort` stable), and the claim that is sensitive to this choice is
settled against the nondeterministic contract `admissibleHighRatedResult`
instead.  Storage failures (a failing `Find`,
`Aggregate` or cursor decode) are modelled by explicit failure flags on the
database value; fallible operations return `Except`.  MongoDB ObjectIDs are
modelled as `Nat`, `time.Time` values as `Nat`, and Go `int` as `Int`.
-/

/-! ## Generic list machinery (stable insertion sort, first-occurrence dedup) -/

/-- Insert `a` into `l`, placing it immediately before the first element `b`
with `r a b = true` (so, for a strict order `r`, after every element that ties
with `a`).  Folding this over a list yields a stable sort. -/
def insertBy (r : α → α → Bool) (a : α) : List α → List α
  | [] => [a]
  | b :: l => if r a b then a :: b :: l else b :: insertBy r a l

/-- Stable sort: processes the list left to right, inserting each element
behind its ties.  Used to model one admissible linearization of MongoDB
`$sort`, whose tie order is unspecified. -/
def sortByStable (r : α → α → Bool) (l : List α) : List α :=
  l.foldl (fun acc a => insertBy r a acc) []

/-- Fuel-driven helper for `firstDedup`, structurally recursive so that
concrete runs reduce inside the kernel. -/
def firstDedupFuel [DecidableEq α] : Nat → List α → List α
  | _, [] => []
  | 0, _ :: _ => []
  | n + 1, a :: l => a :: firstDedupFuel n (l.filter (fun b => b ≠ a))

/-- Deduplicate a list keeping the first occurrence of each element, in
first-encounter order.  Used as one admissible output order of `$group` over
a document stream; MongoDB leaves the actual order unspecified. -/
def firstDedup [DecidableEq α] (l : List α) : List α := firstDedupFuel l.length l

theorem firstDedupFuel_congr [DecidableEq α] :
    ∀ (n m : Nat) (l : List α), l.length ≤ n → l.length ≤ m →
      firstDedupFuel n l = firstDedupFuel m l
  | n, m, [], _, _ => by cases n <;> cases m <;> rfl
  | 0, _, a :: l, h1, _ => absurd h1 (by simp)
  | _ + 1, 0, a :: l, _, h2 => absurd h2 (by simp)
  | n + 1, m + 1, a :: l, h1, h2 => by
    simp only [firstDedupFuel]
    have hf := List.length_filter_le (fun b => decide (b ≠ a)) l
    have hn : (l.filter (fun b => b ≠ a)).length ≤ n := by
      simp only [List.length_cons, Nat.succ_le_succ_iff] at h1
      exact le_trans hf h1
    have hm : (l.filter (fun b => b ≠ a)).length ≤ m := by
      simp only [List.length_cons, Nat.succ_le_succ_iff] at h2
      exact le_trans hf h2
    rw [firstDedupFuel_congr n m _ hn hm]

theorem firstDedup_cons [DecidableEq α] (a : α) (l : List α) :
    firstDedup (a :: l) = a :: firstDedup (l.filter (fun b => b ≠ a)) := by
  show firstDedupFuel (l.length + 1) (a :: l) = _
  rw [firstDedupFuel]
  rw [firstDedupFuel_congr l.length (l.filter (fun b => b ≠ a)).length _
    (List.length_filter_le _ _) le_rfl]
  rfl

/-- Induction along the recursion structure of `firstDedup`. -/
theorem firstDedup_induction [DecidableEq α] {motive : List α → Prop}
    (nil : motive []) (cons : ∀ a l, motive (l.filter (fun b => b ≠ a)) → motive (a :: l)) :
    ∀ l, motive l
  | [] => nil
  | a :: l => cons a l (firstDedup_induction nil cons (l.filter (fun b => b ≠ a)))
termination_by l => l.length
decreasing_by
  exact Nat.lt_succ_of_le (List.length_filter_le _ _)

/-- Position of the first occurrence of `a` in a list (length of the list if
absent). -/
def firstPos [DecidableEq α] (a : α) : List α → Nat
  | [] => 0
  | b :: l => if b = a then 0 else firstPos a l + 1

theorem perm_insertBy (r : α → α → Bool) (a : α) (l : List α) :
    (insertBy r a l).Perm (a :: l) := by
  induction l with
  | nil => simp [insertBy]
  | cons b l ih =>
    by_cases h : r a b = true
    · simp [insertBy, h]
    · rw [insertBy, if_neg (by simp [h])]
      exact (ih.cons b).trans (List.Perm.swap a b l)

theorem mem_insertBy {r : α → α → Bool} {a x : α} {l : List α} :
    x ∈ insertBy r a l ↔ x = a ∨ x ∈ l := by
  rw [(perm_insertBy r a l).mem_iff, List.mem_cons]

/-! ## Character-level string operations

Go's `strings.TrimSpace`, `strings.Split`-style comma splitting (MongoDB
`$split`), case-insensitive matching (`$regex` with option `i`) and BSON's
byte-wise string comparison are modelled on `List Char` by structural
recursion, so that every concrete run can be evaluated by `decide`. -/

/-- Trim leading and trailing whitespace; models `strings.TrimSpace` and the
MongoDB `$trim` default. -/
def trimChars (cs : List Char) : List Char :=
  ((cs.dropWhile Char.isWhitespace).reverse.dropWhile Char.isWhitespace).reverse

/-- String form of `trimChars`. -/
def strTrim (s : String) : String := String.mk (trimChars s.data)

/-- Split a character list on commas, keeping empty tokens; models MongoDB's
two-argument `$split` with separator `","`. -/
def splitCommaChars : List Char → List (List Char)
  | [] => [[]]
  | c :: rest =>
    if c = ',' then [] :: splitCommaChars rest
    else
      match splitCommaChars rest with
      | [] => [[c]]
      | t :: ts => (c :: t) :: ts

/-- Split a string on commas (empty tokens kept). -/
def splitComma (s : String) : List String := (splitCommaChars s.data).map String.mk

/-- Lexicographic (code-point, hence UTF-8 byte-wise) strict comparison of
character lists; models BSON's default string ordering used by `$sort`. -/
def ltChars : List Char → List Char → Bool
  | [], [] => false
  | [], _ :: _ => true
  | _ :: _, [] => false
  | a :: as, b :: bs => if a < b then true else if b < a then false else ltChars as bs

/-- String form of `ltChars`. -/
def strLtb (a b : String) : Bool := ltChars a.data b.data

/-- Lower-cased character list of a string. -/
def lowerChars (s : String) : List Char := s.data.map Char.toLower

/-- Decide whether `pat` occurs as a prefix of `hay` (character lists). -/
def charsPre : List Char → List Char → Bool
  | [], _ => true
  | _ :: _, [] => false
  | a :: as, b :: bs => a == b && charsPre as bs

/-- Decide whether `needle` occurs as a contiguous substring of `hay`. -/
def hasSub (needle : List Char) : List Char → Bool
  | [] => charsPre needle []
  | c :: rest => charsPre needle (c :: rest) || hasSub needle rest

/-- Case-insensitive substring test; models the MongoDB filter
`{genre: {$regex: g, $options: "i"}}` for the plain genre names this system
passes (no regex metacharacters). -/
def containsCI (hay pat : String) : Bool := hasSub (lowerChars pat) (lowerChars hay)

theorem ltChars_irrefl : ∀ cs : List Char, ltChars cs cs = false
  | [] => rfl
  | c :: cs => by simp [ltChars, ltChars_irrefl cs]

theorem ltChars_total : ∀ a b : List Char, ltChars a b = true ∨ ltChars b a = true ∨ a = b
  | [], [] => .inr (.inr rfl)
  | [], _ :: _ => .inl rfl
  | _ :: _, [] => .inr (.inl rfl)
  | a :: as, b :: bs => by
    rcases lt_trichotomy a b with h | h | h
    · left; simp [ltChars, h]
    · subst h
      rcases ltChars_total as bs with h2 | h2 | h2
      · left; simp [ltChars, lt_irrefl, h2]
      · right; left; simp [ltChars, lt_irrefl, h2]
      · right; right; simp [h2]
    · right; left; simp [ltChars, h]

theorem ltChars_trans {a b c : List Char} (hab : ltChars a b = true)
    (hbc : ltChars b c = true) : ltChars a c = true := by
  induction a generalizing b c with
  | nil =>
    cases b with
    | nil => simp [ltChars] at hab
    | cons y bs =>
      cases c with
      | nil => simp [ltChars] at hbc
      | cons z cs => simp [ltChars]
  | cons x as ih =>
    cases b with
    | nil => simp [ltChars] at hab
    | cons y bs =>
      cases c with
      | nil => simp [ltChars] at hbc
      | cons z cs =>
        simp only [ltChars] at hab hbc ⊢
        rcases lt_trichotomy x y with hxy | hxy | hxy
        · rcases lt_trichotomy y z with hyz | hyz | hyz
          · simp [lt_trans hxy hyz]
          · subst hyz; simp [hxy]
          · simp [lt_asymm hyz, hyz] at hbc
        · subst hxy
          simp only [if_neg (lt_irrefl x)] at hab
          rcases lt_trichotomy x z with hxz | hxz | hxz
          · simp [hxz]
          · subst hxz
            simp only [if_neg (lt_irrefl x)] at hbc ⊢
            exact ih hab hbc
          · simp [lt_asymm hxz, hxz] at hbc
        · simp [lt_asymm hxy, hxy] at hab

theorem ltChars_asym {a b : List Char} (h : ltChars a b = true) : ltChars b a = false := by
  cases hba : ltChars b a with
  | false => rfl
  | true =>
    have := ltChars_trans h hba
    simp [ltChars_irrefl] at this

theorem ltChars_negTrans {a b c : List Char} (hab : ltChars a b = false)
    (hbc : ltChars b c = false) : ltChars a c = false := by
  cases hac : ltChars a c with
  | false => rfl
  | true =>
    rcases ltChars_total a b with h | h | h
    · simp [h] at hab
    · have := ltChars_trans h hac
      simp [this] at hbc
    · subst h
      simp [hac] at hbc

/-! ## Correctness of the stable sort -/

theorem foldl_insertBy_perm (r : α → α → Bool) :
    ∀ (l acc : List α), (l.foldl (fun acc a => insertBy r a acc) acc).Perm (acc ++ l)
  | [], acc => by simp
  | a :: l, acc => by
    have h1 := foldl_insertBy_perm r l (insertBy r a acc)
    refine h1.trans ?_
    have h2 : (insertBy r a acc ++ l).Perm ((a :: acc) ++ l) :=
      (perm_insertBy r a acc).append_right l
    exact h2.trans List.perm_middle.symm

theorem sortByStable_perm (r : α → α → Bool) (l : List α) :
    (sortByStable r l).Perm l := by
  simpa using foldl_insertBy_perm r l []

theorem mem_sortByStable {r : α → α → Bool} {l : List α} {x : α} :
    x ∈ sortByStable r l ↔ x ∈ l :=
  (sortByStable_perm r l).mem_iff

theorem insertBy_pairwise {r : α → α → Bool}
    (hirr : ∀ a, r a a = false)
    (htrans : ∀ {a b c}, r a b = true → r b c = true → r a c = true)
    {l : List α} (hl : l.Pairwise (fun a b => r b a = false)) (x : α) :
    (insertBy r x l).Pairwise (fun a b => r b a = false) := by
  induction l with
  | nil => simp [insertBy]
  | cons b bs ih =>
    rcases List.pairwise_cons.mp hl with ⟨hb, hbs⟩
    by_cases hxb : r x b = true
    · rw [insertBy, if_pos hxb]
      refine List.pairwise_cons.mpr ⟨?_, hl⟩
      intro y hy
      rcases List.mem_cons.mp hy with rfl | hy
      · cases hbx : r y x with
        | false => rfl
        | true =>
          have h2 := htrans hbx hxb
          rw [hirr] at h2
          exact (Bool.false_ne_true h2).elim
      · cases hyx : r y x with
        | false => rfl
        | true =>
          have h2 := htrans hyx hxb
          rw [hb y hy] at h2
          exact (Bool.false_ne_true h2).elim
    · rw [insertBy, if_neg hxb]
      refine List.pairwise_cons.mpr ⟨?_, ih hbs⟩
      intro y hy
      rcases mem_insertBy.mp hy with rfl | hy
      · simpa using hxb
      · exact hb y hy

theorem foldl_insertBy_pairwise {r : α → α → Bool}
    (hirr : ∀ a, r a a = false)
    (htrans : ∀ {a b c}, r a b = true → r b c = true → r a c = true) :
    ∀ (l acc : List α), acc.Pairwise (fun a b => r b a = false) →
      (l.foldl (fun acc a => insertBy r a acc) acc).Pairwise (fun a b => r b a = false)
  | [], _, h => h
  | a :: l, acc, h =>
    foldl_insertBy_pairwise hirr htrans l (insertBy r a acc)
      (insertBy_pairwise hirr htrans h a)

theorem sortByStable_pairwise {r : α → α → Bool}
    (hirr : ∀ a, r a a = false)
    (htrans : ∀ {a b c}, r a b = true → r b c = true → r a c = true)
    (l : List α) :
    (sortByStable r l).Pairwise (fun a b => r b a = false) :=
  foldl_insertBy_pairwise hirr htrans l [] (List.Pairwise.nil)

/-! ## First-occurrence deduplication lemmas -/

theorem mem_firstDedup [DecidableEq α] {l : List α} {x : α} :
    x ∈ firstDedup l ↔ x ∈ l := by
  induction l using firstDedup_induction with
  | nil => simp [firstDedup, firstDedupFuel]
  | cons a l ih =>
    rw [firstDedup_cons]
    simp only [List.mem_cons, ih, List.mem_filter, decide_eq_true_eq]
    constructor
    · rintro (rfl | ⟨h1, _⟩)
      · exact .inl rfl
      · exact .inr h1
    · rintro (rfl | h1)
      · exact .inl rfl
      · by_cases hx : x = a
        · exact .inl hx
        · exact .inr ⟨h1, hx⟩

theorem nodup_firstDedup [DecidableEq α] : ∀ l : List α, (firstDedup l).Nodup := by
  intro l
  induction l using firstDedup_induction with
  | nil => simp [firstDedup, firstDedupFuel]
  | cons a l ih =>
    rw [firstDedup_cons]
    refine List.nodup_cons.mpr ⟨?_, ih⟩
    intro hmem
    have h2 := List.mem_filter.mp (mem_firstDedup.mp hmem)
    simp at h2

/-- Decidable equality for fallible results, used to evaluate concrete runs. -/
instance {ε α : Type} [DecidableEq ε] [DecidableEq α] : DecidableEq (Except ε α)
  | .ok x, .ok y =>
    if h : x = y then isTrue (congrArg Except.ok h)
    else isFalse (fun he => h (Except.ok.inj he))
  | .error x, .error y =>
    if h : x = y then isTrue (congrArg Except.error h)
    else isFalse (fun he => h (Except.error.inj he))
  | .ok _, .error _ => isFalse (fun he => Except.noConfusion he)
  | .error _, .ok _ => isFalse (fun he => Except.noConfusion he)

/-! ## Data model (internal/models/models.go) -/

/-- The persisted movie record, `models.Movie`.  `id` models the MongoDB
ObjectID primary key `_id`; `imdbID` is the external identifier with a unique
index (`database.createIndexes`); `imdbRating` is the text-encoded external
rating; timestamps are abstract ticks. -/
structure Movie where
  id : Nat
  imdbID : String := ""
  title : String := ""
  year : String := ""
  genre : String := ""
  director : String := ""
  plot : String := ""
  poster : String := ""
  runtime : String := ""
  imdbRating : String := ""
  cachedAt : Nat := 0
  createdAt : Nat := 0
  updatedAt : Nat := 0
deriving Repr, DecidableEq

/-- A rating row, `models.Rating`: 1-5 star value as a Go `int`. -/
structure Rating where
  id : Nat := 0
  userID : Nat
  movieID : Nat
  rating : Int
  createdAt : Nat := 0
  updatedAt : Nat := 0
deriving Repr, DecidableEq

/-- A watchlist row, `models.Watchlist`. -/
structure WatchlistEntry where
  id : Nat := 0
  userID : Nat
  movieID : Nat
  addedAt : Nat := 0
  createdAt : Nat := 0
  updatedAt : Nat := 0
deriving Repr, DecidableEq

/-- The MongoDB database as seen by the recommendation subsystem: the three
collections in insertion order, plus flags that model storage-layer failures
of the individual queries (a failing `Find`/`Aggregate` call or cursor
decode).  `failingGenreQueries` lists the genre arguments for which
`GetMoviesByGenreExcludingIDs` fails. -/
structure Db where
  movies : List Movie := []
  ratings : List Rating := []
  watchlists : List WatchlistEntry := []
  failingGenreQueries : List String := []
  failFindAll : Bool := false
  failRatingsFind : Bool := false
  failWatchlistsFind : Bool := false
  failHighRatedAgg : Bool := false
deriving Repr

/-- Errors surfaced by the recommendation call chain.  `storage` stands for
any MongoDB error returned by a repository query; `sliceBoundsPanic` models
the Go runtime panic of `movies[:limit]` with a negative `limit`.  The source
has no InvalidLimit-style error anywhere in this chain. -/
inductive RecError where
  | storage
  | sliceBoundsPanic
deriving Repr, DecidableEq

/-! ## RecommendationRepository (internal/repositories/recommendation_repository.go) -/

/-- The token stream produced by stages 1-7 of the `GetHighRatedGenres`
aggregation pipeline (lines 27-92): `$match` user and `rating >= threshold`,
`$lookup`+`$unwind` the rated movie, `$split` its genre on commas, `$unwind`,
`$trim`, and `$match genre != ""`. -/
def genreTokens (db : Db) (userID : Nat) (threshold : Int) : List String :=
  let qualifying := db.ratings.filter (fun r => r.userID == userID && threshold ≤ r.rating)
  let joined := qualifying.flatMap (fun r => db.movies.filter (fun m => m.id == r.movieID))
  ((joined.flatMap (fun m => splitComma m.genre)).map strTrim).filter (fun g => g ≠ "")

/-- Stage 8 of the pipeline: `$group` by genre with `$sum: 1`.  The keys are
arranged in first-encounter order — a determinization of `$group`'s
unspecified output order; the order-insensitive contract is
`admissibleHighRatedResult` below. -/
def groupCounts (tokens : List String) : List (String × Nat) :=
  (firstDedup tokens).map (fun g => (g, tokens.count g))

/-- Order used by stage 9, `$sort: {count: -1}`: strictly larger counts
first; `$sort` gives no guarantee on the order of tied counts. -/
def countDescBefore (a b : String × Nat) : Bool := decide (b.2 < a.2)

/-- Model of `RecommendationRepository.GetHighRatedGenres` (lines 22-116):
runs the aggregation pipeline over the ratings collection and extracts the
genre names in sorted order.  This executable model linearizes the
unspecified `$group`/`$sort` tie order as first-encounter-stable; any run of
the real pipeline satisfies `admissibleHighRatedResult`, and only that
contract is claimed of the program. -/
def getHighRatedGenres (db : Db) (userID : Nat) (threshold : Int) :
    Except RecError (List String) :=
  if db.failHighRatedAgg then .error .storage
  else .ok ((sortByStable countDescBefore (groupCounts (genreTokens db userID threshold))).map
    Prod.fst)

/-- Model of `RecommendationRepository.GetRatedMovieIDs` (lines 119-142). -/
def getRatedMovieIDs (db : Db) (userID : Nat) : Except RecError (List Nat) :=
  if db.failRatingsFind then .error .storage
  else .ok ((db.ratings.filter (fun r => r.userID == userID)).map (fun r => r.movieID))

/-- Model of `RecommendationRepository.GetWatchlistMovieIDs` (lines 145-168). -/
def getWatchlistMovieIDs (db : Db) (userID : Nat) : Except RecError (List Nat) :=
  if db.failWatchlistsFind then .error .storage
  else .ok ((db.watchlists.filter (fun w => w.userID == userID)).map (fun w => w.movieID))

/-- Model of `RecommendationRepository.GetMoviesToExclude` (lines 171-200):
union of rated and watchlisted movie IDs, deduplicated through a Go map.  The
Go map's iteration order is unspecified; the model fixes first-encounter
order, which is irrelevant to the exclusion semantics (a `$nin`/set lookup). -/
def getMoviesToExclude (db : Db) (userID : Nat) : Except RecError (List Nat) :=
  match getRatedMovieIDs db userID with
  | .error e => .error e
  | .ok ratedIDs =>
    match getWatchlistMovieIDs db userID with
    | .error e => .error e
    | .ok watchlistIDs => .ok (firstDedup (ratedIDs ++ watchlistIDs))

/-- Order used by `GetMoviesByGenreExcludingIDs`'s
`SetSort(bson.D{{"imdb_rating", -1}})`: BSON strings compare byte-wise, so
this is a descending lexicographic comparison of the rating text. -/
def ratingDescBefore (a b : Movie) : Bool := strLtb b.imdbRating a.imdbRating

/-- Model of `RecommendationRepository.GetMoviesByGenreExcludingIDs`
(lines 203-236): case-insensitive genre regex filter, `$nin` exclusion (only
added when the exclusion list is non-empty), sort by `imdb_rating` descending,
then limit (only applied when positive). -/
def getMoviesByGenreExcludingIDs (db : Db) (genre : String) (excludeIDs : List Nat)
    (limit : Int) : Except RecError (List Movie) :=
  if genre ∈ db.failingGenreQueries then .error .storage
  else
    let base := db.movies.filter (fun m => containsCI m.genre genre)
    let filtered := if excludeIDs.isEmpty then base
      else base.filter (fun m => !(excludeIDs.contains m.id))
    let sorted := sortByStable ratingDescBefore filtered
    .ok (if 0 < limit then sorted.take limit.toNat else sorted)

/-- Model of `MovieRepository.FindAll` as used by the fallback (returns the
whole movies collection in its natural order). -/
def findAll (db : Db) : Except RecError (List Movie) :=
  if db.failFindAll then .error .storage else .ok db.movies

/-! ## RecommendationService (internal/services/recommendation_service.go) -/

/-- The inner append loop of `generateGenreBasedRecommendations`
(lines 80-85): append candidates one by one, breaking once `limit` entries
are accumulated.  Already-selected movies are not checked. -/
def appendCapped (limit : Int) : List Movie → List Movie → List Movie
  | acc, [] => acc
  | acc, m :: rest =>
    if limit ≤ (acc.length : Int) then acc else appendCapped limit (acc ++ [m]) rest

/-- The per-genre loop of `generateGenreBasedRecommendations` (lines 68-86):
for each preferred genre query candidates, skipping the genre on a query
error (`continue`), and stop once `limit` entries are accumulated. -/
def genreLoop (db : Db) (excludeIDs : List Nat) (limit : Int) :
    List String → List Movie → List Movie
  | [], acc => acc
  | g :: rest, acc =>
    if limit ≤ (acc.length : Int) then acc
    else
      match getMoviesByGenreExcludingIDs db g excludeIDs (limit - acc.length) with
      | .error _ => genreLoop db excludeIDs limit rest acc
      | .ok ms => genreLoop db excludeIDs limit rest (appendCapped limit acc ms)

/-- Model of `RecommendationService.generateGenreBasedRecommendations`
(lines 64-89). -/
def generateGenreBasedRecommendations (db : Db) (preferredGenres : List String)
    (excludeMovieIDs : List Nat) (limit : Int) : List Movie :=
  genreLoop db excludeMovieIDs limit preferredGenres []

/-- The append loop of `getFallbackRecommendations` (lines 108-115): walk the
whole movies collection in order, skipping excluded IDs, until `limit`
entries are accumulated. -/
def fallbackLoop (excludeIDs : List Nat) (limit : Int) :
    List Movie → List Movie → List Movie
  | acc, [] => acc
  | acc, m :: rest =>
    if limit ≤ (acc.length : Int) then acc
    else if excludeIDs.contains m.id then fallbackLoop excludeIDs limit acc rest
    else fallbackLoop excludeIDs limit (acc ++ [m]) rest

/-- Model of `RecommendationService.getFallbackRecommendations`
(lines 92-118): on a `FindAll` error the empty fallback is returned (the
error is swallowed); otherwise movies are appended in collection order.  No
sort of any kind is applied. -/
def getFallbackRecommendations (db : Db) (excludeMovieIDs : List Nat) (limit : Int) :
    List Movie :=
  match findAll db with
  | .error _ => []
  | .ok allMovies => fallbackLoop excludeMovieIDs limit [] allMovies

/-- Model of `RecommendationService.limitResults` (lines 121-126):
`movies[:limit]` panics at runtime when `limit` is negative and the slice is
shorter than `limit` is large; otherwise it truncates. -/
def limitResults (movies : List Movie) (limit : Int) : Except RecError (List Movie) :=
  if (movies.length : Int) ≤ limit then .ok movies
  else if limit < 0 then .error .sliceBoundsPanic
  else .ok (movies.take limit.toNat)

/-- The list assembled by steps 3-4 of `GetRecommendations` (lines 40-47):
the genre-based phase, extended by the fallback phase when shorter than
`limit`. -/
def assembledRecommendations (db : Db) (preferredGenres : List String)
    (excludeMovieIDs : List Nat) (limit : Int) : List Movie :=
  if ((generateGenreBasedRecommendations db preferredGenres excludeMovieIDs limit).length :
      Int) < limit
    then generateGenreBasedRecommendations db preferredGenres excludeMovieIDs limit ++
      getFallbackRecommendations db excludeMovieIDs
        (limit - (generateGenreBasedRecommendations db preferredGenres excludeMovieIDs
          limit).length)
    else generateGenreBasedRecommendations db preferredGenres excludeMovieIDs limit

/-- Model of `RecommendationService.GetRecommendations` (lines 27-51): genre
preferences (threshold 4), exclusions, genre-based phase, fallback phase when
short of `limit`, then `limitResults`.  There is no validation of `limit`. -/
def getRecommendations (db : Db) (userID : Nat) (limit : Int) :
    Except RecError (List Movie) :=
  match getHighRatedGenres db userID 4 with
  | .error e => .error e
  | .ok preferredGenres =>
    match getMoviesToExclude db userID with
    | .error e => .error e
    | .ok excludeMovieIDs =>
      limitResults (assembledRecommendations db preferredGenres excludeMovieIDs limit) limit

/-! ## Movie cache (MovieRepository and MovieService) -/

/-- The decoded OMDb detail response (`repositories.OMDbResponse`). -/
structure OMDbResponse where
  title : String := ""
  year : String := ""
  imdbID : String := ""
  genre : String := ""
  director : String := ""
  plot : String := ""
  poster : String := ""
  runtime : String := ""
  imdbRating : String := ""
  response : String := ""
  error : String := ""
deriving Repr, DecidableEq

/-- Outcome of one HTTP round-trip to the OMDb API: transport failure,
non-200 status, JSON decode failure, or a decoded body. -/
inductive FetchOutcome where
  | transportError
  | badStatus (code : Nat)
  | decodeError
  | ok (resp : OMDbResponse)
deriving Repr

/-- Environment of the cache: the configured API key and the external
catalog, modelled as a function from IMDb ID to the outcome of fetching it;
`now` is the current clock tick used for the timestamps. -/
structure CacheEnv where
  apiKey : String
  fetch : String → FetchOutcome
  now : Nat := 0

/-- State of the cache: the movies collection (insertion order), the next
fresh ObjectID (`primitive.NewObjectID`), a counter of external calls
performed, and a flag modelling a storage error of the `FindOne` lookup. -/
structure CacheState where
  movies : List Movie := []
  nextID : Nat := 1
  calls : Nat := 0
  failFind : Bool := false
deriving Repr, DecidableEq

/-- Errors of `MovieRepository.GetOrCreateByIMDbID` and
`MovieService.GetMovieDetails`, one constructor per `fmt.Errorf` site. -/
inductive CacheError where
  | storageFind
  | noAPIKey
  | transportError
  | badStatus (code : Nat)
  | decodeError
  | apiError (msg : String)
  | apiErrorGeneric
  | missingIMDbID
  | missingTitle
  | missingGenre
  | insertFailed
  | emptyIMDbIDParam
deriving Repr, DecidableEq

/-- Model of `MovieRepository.FindByIMDbID` (src/unnamed/part_003 lines
236-249): a miss (`mongo.ErrNoDocuments`) is reported as `none` with no
error; only a real storage failure is an error. -/
def findByIMDbID (st : CacheState) (imdbID : String) :
    Except CacheError (Option Movie) :=
  if st.failFind then .error .storageFind
  else .ok (st.movies.find? (fun m => m.imdbID == imdbID))

/-- The movie record built by `GetOrCreateByIMDbID` step 3 (lines 350-364):
fresh ObjectID, `IMDbID` taken verbatim from the response (not trimmed), all
other string fields trimmed, timestamps set to now. -/
def mkMovieFromResponse (resp : OMDbResponse) (id now : Nat) : Movie :=
  { id := id
    imdbID := resp.imdbID
    title := strTrim resp.title
    year := strTrim resp.year
    genre := strTrim resp.genre
    director := strTrim resp.director
    plot := strTrim resp.plot
    poster := strTrim resp.poster
    runtime := strTrim resp.runtime
    imdbRating := strTrim resp.imdbRating
    cachedAt := now
    createdAt := now
    updatedAt := now }

/-- Model of `collection.InsertOne` on the movies collection: the unique
index on `imdb_id` (`database.createIndexes`) rejects a duplicate external
ID; otherwise the document is appended. -/
def insertOne (movies : List Movie) (m : Movie) : Except CacheError (List Movie) :=
  if movies.any (fun m0 => m0.imdbID == m.imdbID) then .error .insertFailed
  else .ok (movies ++ [m])

/-- Model of `MovieRepository.GetOrCreateByIMDbID` (src/unnamed/part_003
lines 285-374).  `interleaved` are documents written by a concurrent writer
between this call's lookup and its insert (the §5 race window); pass `[]`
for an uncontended run.  On an insert failure the wrapped error is returned
as-is (line 369): there is no retry of the lookup. -/
def getOrCreateByIMDbID (env : CacheEnv) (st : CacheState) (interleaved : List Movie)
    (imdbID : String) : Except CacheError Movie × CacheState :=
  if st.failFind then (.error .storageFind, st)
  else
    match st.movies.find? (fun m => m.imdbID == imdbID) with
    | some m => (.ok m, st)
    | none =>
      let st := { st with movies := st.movies ++ interleaved }
      if env.apiKey == "" then (.error .noAPIKey, st)
      else
        let st := { st with calls := st.calls + 1 }
        match env.fetch imdbID with
        | .transportError => (.error .transportError, st)
        | .badStatus c => (.error (.badStatus c), st)
        | .decodeError => (.error .decodeError, st)
        | .ok resp =>
          if resp.response == "False" then
            if resp.error ≠ "" then (.error (.apiError resp.error), st)
            else (.error .apiErrorGeneric, st)
          else if resp.imdbID == "" then (.error .missingIMDbID, st)
          else if resp.title == "" then (.error .missingTitle, st)
          else if resp.genre == "" then (.error .missingGenre, st)
          else
            let movie := mkMovieFromResponse resp st.nextID env.now
            let st := { st with nextID := st.nextID + 1 }
            match insertOne st.movies movie with
            | .error e => (.error e, st)
            | .ok ms => (.ok movie, { st with movies := ms })

/-- Model of `MovieService.GetMovieDetails`
(internal/services/movie_service.go lines 174-251).  The cache check at line
181 treats any nil error from `FindByIMDbID` as a hit and returns its movie,
even when that movie is nil (a miss); only on a lookup *error* does control
fall through to the external fetch, validation (IMDb ID and title only) and
persist steps. -/
def getMovieDetails (env : CacheEnv) (st : CacheState) (imdbID : String) :
    Except CacheError (Option Movie) × CacheState :=
  if strTrim imdbID == "" then (.error .emptyIMDbIDParam, st)
  else
    match findByIMDbID st imdbID with
    | .ok m? => (.ok m?, st)
    | .error _ =>
      if env.apiKey == "" then (.error .noAPIKey, st)
      else
        let st := { st with calls := st.calls + 1 }
        match env.fetch imdbID with
        | .transportError => (.error .transportError, st)
        | .badStatus c => (.error (.badStatus c), st)
        | .decodeError => (.error .decodeError, st)
        | .ok resp =>
          if resp.response == "False" then
            if resp.error ≠ "" then (.error (.apiError resp.error), st)
            else (.error .apiErrorGeneric, st)
          else if resp.imdbID == "" then (.error .missingIMDbID, st)
          else if resp.title == "" then (.error .missingTitle, st)
          else
            let movie := mkMovieFromResponse resp st.nextID env.now
            let st := { st with nextID := st.nextID + 1 }
            match insertOne st.movies movie with
            | .error e => (.error e, st)
            | .ok ms => (.ok (some movie), { st with movies := ms })

/-! ## Cache lemmas -/

theorem find?_append_none {p : α → Bool} {l1 : List α} (h : l1.find? p = none)
    (l2 : List α) : (l1 ++ l2).find? p = l2.find? p := by
  induction l1 with
  | nil => rfl
  | cons a l ih =>
    cases hpa : p a with
    | true =>
      rw [List.find?_cons_of_pos _ hpa] at h
      exact absurd h (by simp)
    | false =>
      rw [List.find?_cons_of_neg _ (by simp [hpa])] at h
      rw [List.cons_append, List.find?_cons_of_neg _ (by simp [hpa])]
      exact ih h

theorem find?_none_of_not_match {l : List Movie} {x : String}
    (h : ∀ m ∈ l, m.imdbID ≠ x) : l.find? (fun m => m.imdbID == x) = none := by
  rw [List.find?_eq_none]
  intro m hm
  simp [h m hm]

/-- The successful uncontended run of `GetOrCreateByIMDbID` on a cache miss:
one external call, validation passes, the constructed record is inserted. -/
theorem getOrCreate_miss_run (env : CacheEnv) (st : CacheState) (x : String)
    (resp : OMDbResponse)
    (hff : st.failFind = false)
    (hmiss : ∀ m ∈ st.movies, m.imdbID ≠ x)
    (hkey : env.apiKey ≠ "")
    (hfetch : env.fetch x = .ok resp)
    (hresp : resp.response ≠ "False")
    (hid : resp.imdbID = x) (hxne : x ≠ "")
    (htitle : resp.title ≠ "") (hgenre : resp.genre ≠ "") :
    getOrCreateByIMDbID env st [] x =
      (.ok (mkMovieFromResponse resp st.nextID env.now),
        { st with movies := st.movies ++ [mkMovieFromResponse resp st.nextID env.now],
                  nextID := st.nextID + 1,
                  calls := st.calls + 1 }) := by
  have hfind := find?_none_of_not_match hmiss
  have hkeyb : (env.apiKey == "") = false := by simp [hkey]
  have hrespb : (resp.response == "False") = false := by simp [hresp]
  have hidb : (resp.imdbID == "") = false := by rw [hid]; simp [hxne]
  have htb : (resp.title == "") = false := by simp [htitle]
  have hgb : (resp.genre == "") = false := by simp [hgenre]
  have hany : (st.movies.any
      fun m0 => m0.imdbID == (mkMovieFromResponse resp st.nextID env.now).imdbID) = false := by
    rw [List.any_eq_false]
    intro m0 hm0
    simp [mkMovieFromResponse, hid, hmiss m0 hm0]
  simp [getOrCreateByIMDbID, hff, hfind, hkeyb, hfetch, hrespb, hidb, htb, hgb,
    insertOne, hany]

/-- The cache-hit run of `GetOrCreateByIMDbID`: the stored record is returned
unchanged, with no external call and no state change. -/
theorem getOrCreate_hit_run (env : CacheEnv) (st : CacheState) (x : String) (m : Movie)
    (hff : st.failFind = false)
    (hfind : st.movies.find? (fun m0 => m0.imdbID == x) = some m) :
    getOrCreateByIMDbID env st [] x = (.ok m, st) := by
  simp [getOrCreateByIMDbID, hff, hfind]

/-- C1: for every external ID, a stored record is returned as a cache hit
with no external call, and two sequential calls starting from a miss perform
exactly one external call and return the same record (hence identical
identifiers). -/
theorem c1_getOrCreate_cache_idempotent :
    (∀ (env : CacheEnv) (st : CacheState) (x : String) (m : Movie),
      st.failFind = false →
      st.movies.find? (fun m0 => m0.imdbID == x) = some m →
      getOrCreateByIMDbID env st [] x = (.ok m, st)) ∧
    (∀ (env : CacheEnv) (st : CacheState) (x : String) (resp : OMDbResponse),
      st.failFind = false →
      (∀ m ∈ st.movies, m.imdbID ≠ x) →
      env.apiKey ≠ "" →
      env.fetch x = .ok resp →
      resp.response ≠ "False" →
      resp.imdbID = x → x ≠ "" → resp.title ≠ "" → resp.genre ≠ "" →
      ∃ m1 : Movie,
        (getOrCreateByIMDbID env st [] x).1 = .ok m1 ∧
        (getOrCreateByIMDbID env ((getOrCreateByIMDbID env st [] x).2) [] x).1 = .ok m1 ∧
        ((getOrCreateByIMDbID env ((getOrCreateByIMDbID env st [] x).2) [] x).2).calls =
          st.calls + 1) := by
  constructor
  · exact getOrCreate_hit_run
  · intro env st x resp hff hmiss hkey hfetch hresp hid hxne htitle hgenre
    have hrun1 := getOrCreate_miss_run env st x resp hff hmiss hkey hfetch hresp hid hxne
      htitle hgenre
    set mv := mkMovieFromResponse resp st.nextID env.now with hmv
    have hmvid : mv.imdbID = x := by rw [hmv]; simp [mkMovieFromResponse, hid]
    have hfind2 : (st.movies ++ [mv]).find? (fun m0 => m0.imdbID == x) = some mv := by
      rw [find?_append_none (find?_none_of_not_match hmiss) [mv]]
      exact List.find?_cons_of_pos _ (by simp [hmvid])
    have hrun2 := getOrCreate_hit_run env
      ({ st with movies := st.movies ++ [mv], nextID := st.nextID + 1,
                 calls := st.calls + 1 }) x mv (by simpa using hff) hfind2
    refine ⟨mv, ?_, ?_, ?_⟩
    · rw [hrun1]
    · rw [hrun1, hrun2]
    · rw [hrun1, hrun2]

/-- C1 witness: a concrete double call starting from the empty store. -/
theorem c1_witness :
    ∃ m1 : Movie,
      (getOrCreateByIMDbID
        { apiKey := "k",
          fetch := fun _ => .ok { title := "T", imdbID := "tt6", genre := "Action",
                                  response := "True" } }
        {} [] "tt6").1 = .ok m1 ∧
      (getOrCreateByIMDbID
        { apiKey := "k",
          fetch := fun _ => .ok { title := "T", imdbID := "tt6", genre := "Action",
                                  response := "True" } }
        ((getOrCreateByIMDbID
          { apiKey := "k",
            fetch := fun _ => .ok { title := "T", imdbID := "tt6", genre := "Action",
                                    response := "True" } }
          {} [] "tt6").2) [] "tt6").1 = .ok m1 ∧
      ((getOrCreateByIMDbID
        { apiKey := "k",
          fetch := fun _ => .ok { title := "T", imdbID := "tt6", genre := "Action",
                                  response := "True" } }
        ((getOrCreateByIMDbID
          { apiKey := "k",
            fetch := fun _ => .ok { title := "T", imdbID := "tt6", genre := "Action",
                                    response := "True" } }
          {} [] "tt6").2) [] "tt6").2).calls = ({} : CacheState).calls + 1 :=
  c1_getOrCreate_cache_idempotent.2 _ {} "tt6" _ rfl (by simp) (by decide) rfl (by decide)
    rfl (by decide) (by decide) (by decide)

/-- C4: when the store lookup itself succeeds, a missing record makes
`GetMovieDetails` return an absent movie with no error and no external call:
`FindByIMDbID` reports the miss as a nil record with nil error, and the nil
error is treated as a cache hit, so the state (including the external-call
counter) is returned unchanged. -/
theorem c4_getMovieDetails_miss_is_hit :
    ∀ (env : CacheEnv) (st : CacheState) (x : String),
      st.failFind = false →
      strTrim x ≠ "" →
      (∀ m ∈ st.movies, m.imdbID ≠ x) →
      findByIMDbID st x = .ok none ∧ getMovieDetails env st x = (.ok none, st) := by
  intro env st x hff htrim hmiss
  have hfind := find?_none_of_not_match hmiss
  have h1 : findByIMDbID st x = .ok none := by
    simp [findByIMDbID, hff, hfind]
  refine ⟨h1, ?_⟩
  have htrimb : (strTrim x == "") = false := by simp [htrim]
  simp [getMovieDetails, htrimb, h1]

/-- C4 witness: concrete miss on a healthy empty store. -/
theorem c4_witness :
    findByIMDbID {} "tt9" = .ok none ∧
    getMovieDetails { apiKey := "k", fetch := fun _ => .transportError } {} "tt9" =
      (.ok none, {}) :=
  c4_getMovieDetails_miss_is_hit { apiKey := "k", fetch := fun _ => .transportError } {}
    "tt9" rfl (by decide) (by simp)

/-! ## C5: validation of the fetched detail response -/

/-- A response whose title is whitespace only: empty after trimming. -/
def c5Resp : OMDbResponse :=
  { title := " ", imdbID := "tt5", genre := "Action", response := "True" }

/-- Environment whose catalog returns `c5Resp` for every ID. -/
def c5Env : CacheEnv := { apiKey := "k", fetch := fun _ => .ok c5Resp }

/-- C5 counterexample: the fetched response's title is empty after trimming,
yet `getOrCreateByIMDbID` succeeds and persists a record (with an empty
title), because the source checks the raw fields against `""` without
trimming first. -/
theorem c5_counterexample :
    strTrim c5Resp.title = "" ∧
    (getOrCreateByIMDbID c5Env {} [] "tt5").1 = .ok (mkMovieFromResponse c5Resp 1 0) ∧
    (getOrCreateByIMDbID c5Env {} [] "tt5").2.movies = [mkMovieFromResponse c5Resp 1 0] ∧
    (mkMovieFromResponse c5Resp 1 0).title = "" := by decide

/-- C5 amended: `getOrCreateByIMDbID` fails with the invalid-data error
whenever the raw (untrimmed) external ID, title, or genre of the fetched
response is the empty string, and in every such case no record is persisted;
fields that are merely whitespace pass the check (see the counterexample). -/
theorem c5_validation_rejects_raw_empty :
    ∀ (env : CacheEnv) (st : CacheState) (x : String) (resp : OMDbResponse),
      st.failFind = false →
      (∀ m ∈ st.movies, m.imdbID ≠ x) →
      env.apiKey ≠ "" →
      env.fetch x = .ok resp →
      resp.response ≠ "False" →
      (resp.imdbID = "" ∨ resp.title = "" ∨ resp.genre = "") →
      ∃ e, (getOrCreateByIMDbID env st [] x).1 = .error e ∧
        (e = CacheError.missingIMDbID ∨ e = CacheError.missingTitle ∨
          e = CacheError.missingGenre) ∧
        (getOrCreateByIMDbID env st [] x).2.movies = st.movies := by
  intro env st x resp hff hmiss hkey hfetch hresp hblank
  have hfind := find?_none_of_not_match hmiss
  have hkeyb : (env.apiKey == "") = false := by simp [hkey]
  have hrespb : (resp.response == "False") = false := by simp [hresp]
  by_cases hid : resp.imdbID = ""
  · refine ⟨.missingIMDbID, ?_, .inl rfl, ?_⟩ <;>
      simp [getOrCreateByIMDbID, hff, hfind, hkeyb, hfetch, hrespb, hid]
  · have hidb : (resp.imdbID == "") = false := by simp [hid]
    by_cases ht : resp.title = ""
    · refine ⟨.missingTitle, ?_, .inr (.inl rfl), ?_⟩ <;>
        simp [getOrCreateByIMDbID, hff, hfind, hkeyb, hfetch, hrespb, hidb, ht]
    · have htb : (resp.title == "") = false := by simp [ht]
      have hg : resp.genre = "" := by tauto
      refine ⟨.missingGenre, ?_, .inr (.inr rfl), ?_⟩ <;>
        simp [getOrCreateByIMDbID, hff, hfind, hkeyb, hfetch, hrespb, hidb, htb, hg]

/-- C5 witness: a response with a genuinely empty genre is rejected and
nothing is persisted. -/
theorem c5_witness :
    ∃ e, (getOrCreateByIMDbID
        { apiKey := "k",
          fetch := fun _ => .ok { title := "T", imdbID := "tt5", genre := "",
                                  response := "True" } } {} [] "tt5").1 = .error e ∧
      (e = CacheError.missingIMDbID ∨ e = CacheError.missingTitle ∨
        e = CacheError.missingGenre) ∧
      (getOrCreateByIMDbID
        { apiKey := "k",
          fetch := fun _ => .ok { title := "T", imdbID := "tt5", genre := "",
                                  response := "True" } } {} [] "tt5").2.movies =
        ({} : CacheState).movies :=
  c5_validation_rejects_raw_empty _ {} "tt5" _ rfl (by simp) (by decide) rfl (by decide)
    (by simp)

/-! ## C6: the second-writer-loses race at the insert -/

/-- A valid response for the raced external ID. -/
def c6Resp : OMDbResponse :=
  { title := "T", imdbID := "tt6", genre := "Action", response := "True" }

/-- Environment whose catalog returns `c6Resp` for every ID. -/
def c6Env : CacheEnv := { apiKey := "k", fetch := fun _ => .ok c6Resp }

/-- The record a concurrent second writer inserts during the race window. -/
def c6Other : Movie := { id := 99, imdbID := "tt6" }

/-- C6 counterexample: with the store empty at lookup time and a concurrent
writer inserting a record with the same external ID before the insert, the
uniqueness violation is surfaced as an error (the wrapped
"failed to cache movie data" return), not converted into a successful read of
the now-present record. -/
theorem c6_counterexample :
    (getOrCreateByIMDbID c6Env {} [c6Other] "tt6").1 = .error .insertFailed ∧
    (getOrCreateByIMDbID c6Env {} [c6Other] "tt6").2.movies = [c6Other] := by decide

/-- C6 amended: whenever the insert step hits the uniqueness violation
(a record with the fetched external ID was written between the lookup and the
insert), `GetOrCreateByIMDbID` returns the wrapped insert error to the
caller; no retry of the local lookup is performed. -/
theorem c6_duplicate_insert_surfaces_error :
    ∀ (env : CacheEnv) (st : CacheState) (x : String) (resp : OMDbResponse) (w : Movie),
      st.failFind = false →
      (∀ m ∈ st.movies, m.imdbID ≠ x) →
      env.apiKey ≠ "" →
      env.fetch x = .ok resp →
      resp.response ≠ "False" →
      resp.imdbID = x → x ≠ "" → resp.title ≠ "" → resp.genre ≠ "" →
      w.imdbID = x →
      (getOrCreateByIMDbID env st [w] x).1 = .error .insertFailed := by
  intro env st x resp w hff hmiss hkey hfetch hresp hid hxne htitle hgenre hw
  have hfind := find?_none_of_not_match hmiss
  have hkeyb : (env.apiKey == "") = false := by simp [hkey]
  have hrespb : (resp.response == "False") = false := by simp [hresp]
  have hidb : (resp.imdbID == "") = false := by rw [hid]; simp [hxne]
  have htb : (resp.title == "") = false := by simp [htitle]
  have hgb : (resp.genre == "") = false := by simp [hgenre]
  have hany : ((st.movies ++ [w]).any
      fun m0 => m0.imdbID == (mkMovieFromResponse resp st.nextID env.now).imdbID) = true := by
    rw [List.any_eq_true]
    exact ⟨w, by simp, by simp [mkMovieFromResponse, hid, hw]⟩
  simp [getOrCreateByIMDbID, hff, hfind, hkeyb, hfetch, hrespb, hidb, htb, hgb,
    insertOne, hany]

/-- C6 witness: the amended behaviour at the concrete race of the
counterexample. -/
theorem c6_witness :
    (getOrCreateByIMDbID c6Env {} [{ id := 98, imdbID := "tt6", title := "W" }] "tt6").1 =
      .error .insertFailed :=
  c6_duplicate_insert_surfaces_error c6Env {} "tt6" c6Resp _ rfl (by simp) (by decide) rfl
    (by decide) rfl (by decide) (by decide) (by decide) rfl

/-! ## Recommendation lemmas -/

theorem ratingDescBefore_irrefl (a : Movie) : ratingDescBefore a a = false :=
  ltChars_irrefl _

theorem ratingDescBefore_trans {a b c : Movie} (h1 : ratingDescBefore a b = true)
    (h2 : ratingDescBefore b c = true) : ratingDescBefore a c = true :=
  ltChars_trans h2 h1

theorem getMoviesByGenre_sorted {db : Db} {g : String} {ex : List Nat} {lim : Int}
    {ms : List Movie} (h : getMoviesByGenreExcludingIDs db g ex lim = .ok ms) :
    ms.Pairwise (fun a b => strLtb a.imdbRating b.imdbRating = false) := by
  rw [getMoviesByGenreExcludingIDs] at h
  by_cases hfail : g ∈ db.failingGenreQueries
  · rw [if_pos hfail] at h
    exact absurd h (by simp)
  · rw [if_neg hfail] at h
    simp only [Except.ok.injEq] at h
    have hsorted := sortByStable_pairwise ratingDescBefore_irrefl
      (fun h1 h2 => ratingDescBefore_trans h1 h2)
      (if (ex.isEmpty) = true
        then db.movies.filter (fun m => containsCI m.genre g)
        else (db.movies.filter (fun m => containsCI m.genre g)).filter
          (fun m => !(ex.contains m.id)))
    by_cases hlim : 0 < lim
    · rw [if_pos hlim] at h
      rw [← h]
      exact List.Pairwise.sublist (List.take_sublist _ _) hsorted
    · rw [if_neg hlim] at h
      rw [← h]
      exact hsorted

theorem mem_getMoviesByGenre {db : Db} {g : String} {ex : List Nat} {lim : Int}
    {ms : List Movie} (h : getMoviesByGenreExcludingIDs db g ex lim = .ok ms)
    {m : Movie} (hm : m ∈ ms) :
    m ∈ db.movies ∧ containsCI m.genre g = true ∧ m.id ∉ ex := by
  rw [getMoviesByGenreExcludingIDs] at h
  by_cases hfail : g ∈ db.failingGenreQueries
  · rw [if_pos hfail] at h
    exact absurd h (by simp)
  · rw [if_neg hfail] at h
    simp only [Except.ok.injEq] at h
    rw [← h] at hm
    have hm2 : m ∈ sortByStable ratingDescBefore
        (if (ex.isEmpty) = true
          then db.movies.filter (fun m => containsCI m.genre g)
          else (db.movies.filter (fun m => containsCI m.genre g)).filter
            (fun m => !(ex.contains m.id))) := by
      by_cases hlim : 0 < lim
      · rw [if_pos hlim] at hm
        exact List.mem_of_mem_take hm
      · rw [if_neg hlim] at hm
        exact hm
    have hm3 := mem_sortByStable.mp hm2
    by_cases hemp : ex.isEmpty = true
    · rw [if_pos hemp] at hm3
      rcases List.mem_filter.mp hm3 with ⟨hmem, hci⟩
      have : ex = [] := List.isEmpty_iff.mp hemp
      exact ⟨hmem, hci, by simp [this]⟩
    · rw [if_neg hemp] at hm3
      rcases List.mem_filter.mp hm3 with ⟨hm4, hcon⟩
      rcases List.mem_filter.mp hm4 with ⟨hmem, hci⟩
      refine ⟨hmem, hci, ?_⟩
      simp only [Bool.not_eq_true'] at hcon
      simpa [List.contains] using hcon

theorem mem_appendCapped {lim : Int} :
    ∀ {acc ms : List Movie} {m : Movie}, m ∈ appendCapped lim acc ms → m ∈ acc ∨ m ∈ ms := by
  intro acc ms
  induction ms generalizing acc with
  | nil =>
    intro m hm
    rw [appendCapped] at hm
    exact .inl hm
  | cons a rest ih =>
    intro m hm
    rw [appendCapped] at hm
    by_cases h1 : lim ≤ (acc.length : Int)
    · rw [if_pos h1] at hm
      exact .inl hm
    · rw [if_neg h1] at hm
      rcases ih hm with h | h
      · rcases List.mem_append.mp h with h | h
        · exact .inl h
        · right
          have : m = a := by simpa using h
          simp [this]
      · exact .inr (List.mem_cons_of_mem _ h)

theorem mem_genreLoop {db : Db} {ex : List Nat} {lim : Int} :
    ∀ (gs : List String) (acc : List Movie) {m : Movie},
      m ∈ genreLoop db ex lim gs acc →
      m ∈ acc ∨ ∃ g lim2 ms, getMoviesByGenreExcludingIDs db g ex lim2 = .ok ms ∧ m ∈ ms := by
  intro gs
  induction gs with
  | nil =>
    intro acc m hm
    rw [genreLoop] at hm
    exact .inl hm
  | cons g rest ih =>
    intro acc m hm
    rw [genreLoop] at hm
    by_cases h1 : lim ≤ (acc.length : Int)
    · rw [if_pos h1] at hm
      exact .inl hm
    · rw [if_neg h1] at hm
      cases hq : getMoviesByGenreExcludingIDs db g ex (lim - acc.length) with
      | error e =>
        simp only [hq] at hm
        exact ih _ hm
      | ok qms =>
        simp only [hq] at hm
        rcases ih _ hm with h | h
        · rcases mem_appendCapped h with h2 | h2
          · exact .inl h2
          · exact .inr ⟨g, lim - acc.length, qms, hq, h2⟩
        · exact .inr h

theorem mem_fallbackLoop {ex : List Nat} {lim : Int} :
    ∀ (ms acc : List Movie) {m : Movie}, m ∈ fallbackLoop ex lim acc ms →
      m ∈ acc ∨ (m ∈ ms ∧ ex.contains m.id = false) := by
  intro ms
  induction ms with
  | nil =>
    intro acc m hm
    rw [fallbackLoop] at hm
    exact .inl hm
  | cons a rest ih =>
    intro acc m hm
    rw [fallbackLoop] at hm
    by_cases h1 : lim ≤ (acc.length : Int)
    · rw [if_pos h1] at hm
      exact .inl hm
    · rw [if_neg h1] at hm
      by_cases h2 : ex.contains a.id = true
      · rw [if_pos h2] at hm
        rcases ih _ hm with h | ⟨hh1, hh2⟩
        · exact .inl h
        · exact .inr ⟨List.mem_cons_of_mem _ hh1, hh2⟩
      · rw [if_neg h2] at hm
        rcases ih _ hm with h | ⟨hh1, hh2⟩
        · rcases List.mem_append.mp h with h3 | h3
          · exact .inl h3
          · right
            have hma : m = a := by simpa using h3
            subst hma
            exact ⟨List.mem_cons_self _ _, by simpa using h2⟩
        · exact .inr ⟨List.mem_cons_of_mem _ hh1, hh2⟩

theorem fallbackLoop_append_sublist {ex : List Nat} {lim : Int} :
    ∀ (ms acc : List Movie), ∃ s, fallbackLoop ex lim acc ms = acc ++ s ∧ s.Sublist ms := by
  intro ms
  induction ms with
  | nil =>
    intro acc
    exact ⟨[], by rw [fallbackLoop]; simp, List.nil_sublist _⟩
  | cons a rest ih =>
    intro acc
    rw [fallbackLoop]
    by_cases h1 : lim ≤ (acc.length : Int)
    · rw [if_pos h1]
      exact ⟨[], by simp, List.nil_sublist _⟩
    · rw [if_neg h1]
      by_cases h2 : ex.contains a.id = true
      · rw [if_pos h2]
        rcases ih acc with ⟨s, hs, hsub⟩
        exact ⟨s, hs, hsub.cons a⟩
      · rw [if_neg h2]
        rcases ih (acc ++ [a]) with ⟨s, hs, hsub⟩
        exact ⟨a :: s, by rw [hs]; simp, hsub.cons₂ a⟩

/-! ## C2: candidate ordering -/

/-- A movie with external rating text "7.1", inserted first. -/
def c2M71 : Movie := { id := 1, imdbID := "tt71", genre := "Drama", imdbRating := "7.1" }

/-- A movie with external rating text "8.8", inserted second. -/
def c2M88 : Movie := { id := 2, imdbID := "tt88", genre := "Drama", imdbRating := "8.8" }

/-- A database of the two movies and no ratings, so all candidates come from
the fallback phase. -/
def c2Db : Db := { movies := [c2M71, c2M88] }

/-- C2 counterexample: the fallback phase appends candidates in store order,
not by descending external rating: the 7.1-rated movie is returned before the
8.8-rated one. -/
theorem c2_counterexample :
    getRecommendations c2Db 1 2 = .ok [c2M71, c2M88] ∧
    strLtb c2M71.imdbRating c2M88.imdbRating = true := by decide

/-- C2 amended: the genre-phase candidates of each query are ordered by
descending byte-wise lexicographic comparison of the rating text (not a
parsed-decimal comparison); the fallback appends candidates in store
(insertion) order with no rating sort at all; the assembled order is the
final returned order except for truncation to `limit`. -/
theorem c2_ordering :
    (∀ (db : Db) (g : String) (ex : List Nat) (lim : Int) (ms : List Movie),
      getMoviesByGenreExcludingIDs db g ex lim = .ok ms →
      ms.Pairwise (fun a b => strLtb a.imdbRating b.imdbRating = false)) ∧
    (∀ (db : Db) (ex : List Nat) (lim : Int),
      (getFallbackRecommendations db ex lim).Sublist db.movies) ∧
    (∀ (db : Db) (uid : Nat) (lim : Int) (ms : List Movie),
      getRecommendations db uid lim = .ok ms →
      ∃ genres ex, getHighRatedGenres db uid 4 = .ok genres ∧
        getMoviesToExclude db uid = .ok ex ∧
        (ms = assembledRecommendations db genres ex lim ∨
          ms = (assembledRecommendations db genres ex lim).take lim.toNat)) := by
  refine ⟨fun db g ex lim ms h => getMoviesByGenre_sorted h, ?_, ?_⟩
  · intro db ex lim
    rw [getFallbackRecommendations]
    cases hfa : findAll db with
    | error e => exact List.nil_sublist _
    | ok allMovies =>
      show (fallbackLoop ex lim [] allMovies).Sublist db.movies
      rcases @fallbackLoop_append_sublist ex lim allMovies [] with
        ⟨s, hs, hsub⟩
      rw [hs]
      have hall : allMovies = db.movies := by
        rw [findAll] at hfa
        by_cases hf : db.failFindAll = true
        · rw [if_pos hf] at hfa
          exact absurd hfa (by simp)
        · rw [if_neg hf] at hfa
          exact (Except.ok.inj hfa).symm
      simpa using hall ▸ hsub
  · intro db uid lim ms h
    rw [getRecommendations] at h
    cases hg : getHighRatedGenres db uid 4 with
    | error e =>
      simp only [hg] at h
      exact absurd h (by simp)
    | ok genres =>
      simp only [hg] at h
      cases hex : getMoviesToExclude db uid with
      | error e =>
        simp only [hex] at h
        exact absurd h (by simp)
      | ok ex =>
        simp only [hex] at h
        refine ⟨genres, ex, rfl, rfl, ?_⟩
        rw [limitResults] at h
        by_cases h1 : ((assembledRecommendations db genres ex lim).length : Int) ≤ lim
        · rw [if_pos h1] at h
          exact .inl (Except.ok.inj h).symm
        · rw [if_neg h1] at h
          by_cases h2 : lim < 0
          · rw [if_pos h2] at h
            exact absurd h (by simp)
          · rw [if_neg h2] at h
            exact .inr (Except.ok.inj h).symm

/-- C2 witness: the amended statement instantiated on the concrete fallback
run of the counterexample. -/
theorem c2_witness :
    ∃ genres ex, getHighRatedGenres c2Db 1 4 = .ok genres ∧
      getMoviesToExclude c2Db 1 = .ok ex ∧
      ([c2M71, c2M88] = assembledRecommendations c2Db genres ex 2 ∨
        [c2M71, c2M88] = (assembledRecommendations c2Db genres ex 2).take (2 : Int).toNat) :=
  c2_ordering.2.2 c2Db 1 2 [c2M71, c2M88] (by decide)

theorem findAll_ok {db : Db} {l : List Movie} (h : findAll db = .ok l) : l = db.movies := by
  rw [findAll] at h
  by_cases hf : db.failFindAll = true
  · rw [if_pos hf] at h
    exact absurd h (by simp)
  · rw [if_neg hf] at h
    exact (Except.ok.inj h).symm

theorem mem_getFallback {db : Db} {ex : List Nat} {lim : Int} {m : Movie}
    (hm : m ∈ getFallbackRecommendations db ex lim) : m ∈ db.movies ∧ m.id ∉ ex := by
  rw [getFallbackRecommendations] at hm
  cases hfa : findAll db with
  | error e =>
    simp only [hfa] at hm
    simp at hm
  | ok allMovies =>
    simp only [hfa] at hm
    rcases mem_fallbackLoop allMovies [] hm with h | ⟨h1, h2⟩
    · simp at h
    · refine ⟨?_, ?_⟩
      · rw [← findAll_ok hfa]
        exact h1
      · simpa [List.contains] using h2

theorem mem_generateGenre {db : Db} {genres : List String} {ex : List Nat} {lim : Int}
    {m : Movie} (hm : m ∈ generateGenreBasedRecommendations db genres ex lim) :
    m ∈ db.movies ∧ m.id ∉ ex := by
  rcases mem_genreLoop genres [] hm with h | ⟨g, lim2, qms, hq, hmq⟩
  · simp at h
  · have h2 := mem_getMoviesByGenre hq hmq
    exact ⟨h2.1, h2.2.2⟩

theorem mem_assembled {db : Db} {genres : List String} {ex : List Nat} {lim : Int}
    {m : Movie} (hm : m ∈ assembledRecommendations db genres ex lim) :
    m ∈ db.movies ∧ m.id ∉ ex := by
  rw [assembledRecommendations] at hm
  by_cases hc : ((generateGenreBasedRecommendations db genres ex lim).length : Int) < lim
  · rw [if_pos hc] at hm
    rcases List.mem_append.mp hm with h | h
    · exact mem_generateGenre h
    · exact mem_getFallback h
  · rw [if_neg hc] at hm
    exact mem_generateGenre hm

theorem getRecommendations_ok_sub {db : Db} {uid : Nat} {lim : Int} {ms : List Movie}
    {genres : List String} {ex : List Nat}
    (hg : getHighRatedGenres db uid 4 = .ok genres)
    (hex : getMoviesToExclude db uid = .ok ex)
    (hres : getRecommendations db uid lim = .ok ms) :
    ∀ m ∈ ms, m ∈ assembledRecommendations db genres ex lim := by
  rw [getRecommendations] at hres
  simp only [hg, hex] at hres
  rw [limitResults] at hres
  by_cases h1 : ((assembledRecommendations db genres ex lim).length : Int) ≤ lim
  · rw [if_pos h1] at hres
    rw [← Except.ok.inj hres]
    exact fun m2 hm2 => hm2
  · rw [if_neg h1] at hres
    by_cases h2 : lim < 0
    · rw [if_pos h2] at hres
      exact absurd hres (by simp)
    · rw [if_neg h2] at hres
      rw [← Except.ok.inj hres]
      exact fun m2 hm2 => List.mem_of_mem_take hm2

/-- C3: the exclusion set computed by `GetMoviesToExclude` is exactly the
deduplicated union of the user's rated movie IDs and watchlisted movie IDs,
and no identifier of that set appears among the movies returned by
`GetRecommendations` for the same user. -/
theorem c3_exclusions_respected :
    ∀ (db : Db) (uid : Nat) (lim : Int) (rs ws ex : List Nat) (ms : List Movie),
      getRatedMovieIDs db uid = .ok rs →
      getWatchlistMovieIDs db uid = .ok ws →
      getMoviesToExclude db uid = .ok ex →
      getRecommendations db uid lim = .ok ms →
      (∀ i, i ∈ ex ↔ (i ∈ rs ∨ i ∈ ws)) ∧ ex.Nodup ∧ (∀ m ∈ ms, m.id ∉ ex) := by
  intro db uid lim rs ws ex ms hrs hws hex hres
  have hexval : ex = firstDedup (rs ++ ws) := by
    rw [getMoviesToExclude] at hex
    simp only [hrs, hws] at hex
    exact (Except.ok.inj hex).symm
  refine ⟨?_, ?_, ?_⟩
  · intro i
    rw [hexval, mem_firstDedup, List.mem_append]
  · rw [hexval]
    exact nodup_firstDedup _
  · intro m hm
    rw [getRecommendations] at hres
    cases hg : getHighRatedGenres db uid 4 with
    | error e =>
      simp only [hg] at hres
      exact absurd hres (by simp)
    | ok genres =>
      have hma := getRecommendations_ok_sub hg hex (by rw [getRecommendations]; exact hres)
        m hm
      exact (mem_assembled hma).2

/-- C3 witness: concrete database where a rated and a watchlisted movie are
excluded from the recommendations. -/
theorem c3_witness :
    (∀ i, i ∈ [1, 2] ↔ (i ∈ [1] ∨ i ∈ [2])) ∧ ([1, 2] : List Nat).Nodup ∧
      (∀ m ∈ [({ id := 3, imdbID := "tt3", genre := "Drama" } : Movie)], m.id ∉ [1, 2]) :=
  c3_exclusions_respected
    { movies := [c2M71, { id := 2, imdbID := "ttw", genre := "Drama" },
        { id := 3, imdbID := "tt3", genre := "Drama" }],
      ratings := [{ userID := 7, movieID := 1, rating := 2 }],
      watchlists := [{ userID := 7, movieID := 2 }] }
    7 5 [1] [2] [1, 2] [{ id := 3, imdbID := "tt3", genre := "Drama" }]
    (by decide) (by decide) (by decide) (by decide)

/-! ## C7: no exclusion of already-selected candidates -/

/-- The movie the user rated five stars, tagged with two genres. -/
def c7M0 : Movie := { id := 1, imdbID := "tt0", genre := "Action, Sci-Fi", imdbRating := "9.0" }

/-- A candidate movie whose genre field matches both preferred genres. -/
def c7M2 : Movie := { id := 2, imdbID := "tt2", genre := "Action, Sci-Fi", imdbRating := "8.0" }

/-- Database for the C7 run: preferred genres become ["Action", "Sci-Fi"]
and `c7M2` matches both. -/
def c7Db : Db :=
  { movies := [c7M0, c7M2], ratings := [{ userID := 1, movieID := 1, rating := 5 }] }

/-- C7 counterexample: a movie matching two preferred genres is returned
twice in one request; the result list is not pairwise-distinct, because the
genre queries exclude only the precomputed exclusion set, never the
identifiers already selected in the request. -/
theorem c7_counterexample :
    getRecommendations c7Db 1 2 = .ok [c7M2, c7M2] ∧
    ¬ List.Pairwise (fun a b : Movie => a.id ≠ b.id) [c7M2, c7M2] := by
  refine ⟨by decide, ?_⟩
  intro h
  exact (List.pairwise_cons.mp h).1 c7M2 (List.mem_cons_self _ _) rfl

/-- C7 amended: each phase excludes exactly the precomputed exclusion set
(never the identifiers already selected in the request), so every returned
identifier is outside that set, but a movie matching several preferred
genres can be appended once per matching genre. -/
theorem c7_phases_exclude_only_precomputed :
    ∀ (db : Db) (genres : List String) (ex : List Nat) (lim : Int),
      (∀ m ∈ generateGenreBasedRecommendations db genres ex lim, m.id ∉ ex) ∧
      (∀ m ∈ getFallbackRecommendations db ex lim, m.id ∉ ex) := by
  intro db genres ex lim
  exact ⟨fun m hm => (mem_generateGenre hm).2, fun m hm => (mem_getFallback hm).2⟩

/-- C7 witness: the duplicated candidate of the counterexample is indeed
outside the exclusion set. -/
theorem c7_witness : c7M2.id ∉ [1] :=
  (c7_phases_exclude_only_precomputed c7Db ["Action", "Sci-Fi"] [1] 2).1 c7M2 (by decide)

/-! ## C8: storage errors in candidate queries are swallowed -/

/-- The movie whose five-star rating makes "Action" the preferred genre. -/
def c8MA : Movie := { id := 1, imdbID := "tt1", genre := "Action", imdbRating := "9.0" }

/-- A drama reachable only through the fallback. -/
def c8MD : Movie := { id := 2, imdbID := "tt2", genre := "Drama", imdbRating := "8.0" }

/-- Database where the query for the (only) preferred genre fails with a
storage error. -/
def c8Db : Db :=
  { movies := [c8MA, c8MD],
    ratings := [{ userID := 1, movieID := 1, rating := 5 }],
    failingGenreQueries := ["Action"] }

/-- C8 counterexample: the "Action" candidate query fails with a storage
error, yet `GetRecommendations` succeeds and returns the fallback's partial
result instead of failing. -/
theorem c8_counterexample :
    getHighRatedGenres c8Db 1 4 = .ok ["Action"] ∧
    "Action" ∈ c8Db.failingGenreQueries ∧
    getRecommendations c8Db 1 2 = .ok [c8MD] := by decide

theorem limitResults_ok {l : List Movie} {lim : Int} (h : 0 ≤ lim) :
    ∃ ms, limitResults l lim = .ok ms := by
  rw [limitResults]
  by_cases h1 : (l.length : Int) ≤ lim
  · rw [if_pos h1]
    exact ⟨_, rfl⟩
  · rw [if_neg h1, if_neg (by omega)]
    exact ⟨_, rfl⟩

/-- C8 amended: errors of the preference and exclusion queries do propagate,
but once those succeed the operation always succeeds for a non-negative
limit, regardless of genre-candidate or fallback query failures: a failing
genre query is skipped (`continue`) and a failing fallback yields an empty
fallback, so partial results are returned rather than a storage error. -/
theorem c8_failure_semantics :
    (∀ (db : Db) (uid : Nat) (lim : Int), db.failHighRatedAgg = true →
      getRecommendations db uid lim = .error .storage) ∧
    (∀ (db : Db) (uid : Nat) (lim : Int), db.failHighRatedAgg = false →
      db.failRatingsFind = true → getRecommendations db uid lim = .error .storage) ∧
    (∀ (db : Db) (uid : Nat) (lim : Int), db.failHighRatedAgg = false →
      db.failRatingsFind = false → db.failWatchlistsFind = true →
      getRecommendations db uid lim = .error .storage) ∧
    (∀ (db : Db) (uid : Nat) (lim : Int), db.failHighRatedAgg = false →
      db.failRatingsFind = false → db.failWatchlistsFind = false → 0 ≤ lim →
      ∃ ms, getRecommendations db uid lim = .ok ms) := by
  refine ⟨?_, ?_, ?_, ?_⟩
  · intro db uid lim hf
    rw [getRecommendations]
    have hg : getHighRatedGenres db uid 4 = .error .storage := by
      rw [getHighRatedGenres, if_pos hf]
    simp only [hg]
  · intro db uid lim hagg hrat
    rw [getRecommendations]
    have hg : getHighRatedGenres db uid 4 =
        .ok ((sortByStable countDescBefore (groupCounts (genreTokens db uid 4))).map
          Prod.fst) := by
      rw [getHighRatedGenres, if_neg (by simp [hagg])]
    simp only [hg]
    have hex : getMoviesToExclude db uid = .error .storage := by
      rw [getMoviesToExclude]
      have hr : getRatedMovieIDs db uid = .error .storage := by
        rw [getRatedMovieIDs, if_pos hrat]
      simp only [hr]
    simp only [hex]
  · intro db uid lim hagg hrat hwat
    rw [getRecommendations]
    have hg : getHighRatedGenres db uid 4 =
        .ok ((sortByStable countDescBefore (groupCounts (genreTokens db uid 4))).map
          Prod.fst) := by
      rw [getHighRatedGenres, if_neg (by simp [hagg])]
    simp only [hg]
    have hex : getMoviesToExclude db uid = .error .storage := by
      rw [getMoviesToExclude]
      have hr : getRatedMovieIDs db uid =
          .ok ((db.ratings.filter (fun r => r.userID == uid)).map (fun r => r.movieID)) := by
        rw [getRatedMovieIDs, if_neg (by simp [hrat])]
      simp only [hr]
      have hw : getWatchlistMovieIDs db uid = .error .storage := by
        rw [getWatchlistMovieIDs, if_pos hwat]
      simp only [hw]
    simp only [hex]
  · intro db uid lim hagg hrat hwat hlim
    rw [getRecommendations]
    have hg : getHighRatedGenres db uid 4 =
        .ok ((sortByStable countDescBefore (groupCounts (genreTokens db uid 4))).map
          Prod.fst) := by
      rw [getHighRatedGenres, if_neg (by simp [hagg])]
    simp only [hg]
    have hex : getMoviesToExclude db uid =
        .ok (firstDedup
          (((db.ratings.filter (fun r => r.userID == uid)).map (fun r => r.movieID)) ++
            ((db.watchlists.filter (fun w => w.userID == uid)).map (fun w => w.movieID)))) := by
      rw [getMoviesToExclude]
      have hr : getRatedMovieIDs db uid =
          .ok ((db.ratings.filter (fun r => r.userID == uid)).map (fun r => r.movieID)) := by
        rw [getRatedMovieIDs, if_neg (by simp [hrat])]
      simp only [hr]
      have hw : getWatchlistMovieIDs db uid =
          .ok ((db.watchlists.filter (fun w => w.userID == uid)).map (fun w => w.movieID)) := by
        rw [getWatchlistMovieIDs, if_neg (by simp [hwat])]
      simp only [hw]
    simp only [hex]
    exact limitResults_ok hlim

/-- C8 witness: the always-succeeds part applied to the database of the
counterexample, whose genre query fails. -/
theorem c8_witness : ∃ ms, getRecommendations c8Db 1 2 = .ok ms :=
  c8_failure_semantics.2.2.2 c8Db 1 2 rfl rfl rfl (by decide)

/-! ## C9: no validation of the limit -/

/-- A database with one movie and healthy storage. -/
def c9Db : Db := { movies := [{ id := 1, imdbID := "tt9", genre := "Drama" }] }

/-- C9 counterexample: `getRecommendations(user, 0)` succeeds with an empty
list; there is no InvalidLimit failure (the error type of the chain has no
such case at all). -/
theorem c9_counterexample :
    getRecommendations c9Db 1 0 = .ok [] ∧ c9Db.movies ≠ [] := by decide

theorem genreLoop_nonpos {db : Db} {ex : List Nat} {lim : Int} (h : lim ≤ 0) :
    ∀ gs : List String, genreLoop db ex lim gs [] = []
  | [] => by rw [genreLoop]
  | g :: rest => by
    rw [genreLoop, if_pos (by simpa using h)]

/-- C9 amended: the source performs no validation of `limit`: with limit 0
the result is an empty list with no error, and a negative limit triggers the
`movies[:limit]` slice-bounds runtime panic, not an InvalidLimit error. -/
theorem c9_no_limit_validation :
    (∀ (db : Db) (uid : Nat), db.failHighRatedAgg = false → db.failRatingsFind = false →
      db.failWatchlistsFind = false → getRecommendations db uid 0 = .ok []) ∧
    (∀ (db : Db) (uid : Nat) (lim : Int), lim < 0 → db.failHighRatedAgg = false →
      db.failRatingsFind = false → db.failWatchlistsFind = false →
      getRecommendations db uid lim = .error .sliceBoundsPanic) := by
  constructor
  · intro db uid hagg hrat hwat
    rw [getRecommendations]
    have hg : getHighRatedGenres db uid 4 =
        .ok ((sortByStable countDescBefore (groupCounts (genreTokens db uid 4))).map
          Prod.fst) := by
      rw [getHighRatedGenres, if_neg (by simp [hagg])]
    simp only [hg]
    have hex : getMoviesToExclude db uid =
        .ok (firstDedup
          (((db.ratings.filter (fun r => r.userID == uid)).map (fun r => r.movieID)) ++
            ((db.watchlists.filter (fun w => w.userID == uid)).map (fun w => w.movieID)))) := by
      rw [getMoviesToExclude]
      have hr : getRatedMovieIDs db uid =
          .ok ((db.ratings.filter (fun r => r.userID == uid)).map (fun r => r.movieID)) := by
        rw [getRatedMovieIDs, if_neg (by simp [hrat])]
      simp only [hr]
      have hw : getWatchlistMovieIDs db uid =
          .ok ((db.watchlists.filter (fun w => w.userID == uid)).map (fun w => w.movieID)) := by
        rw [getWatchlistMovieIDs, if_neg (by simp [hwat])]
      simp only [hw]
    simp only [hex]
    rw [assembledRecommendations, generateGenreBasedRecommendations,
      genreLoop_nonpos le_rfl]
    rw [if_neg (by simp), limitResults, if_pos (by simp)]
  · intro db uid lim hneg hagg hrat hwat
    rw [getRecommendations]
    have hg : getHighRatedGenres db uid 4 =
        .ok ((sortByStable countDescBefore (groupCounts (genreTokens db uid 4))).map
          Prod.fst) := by
      rw [getHighRatedGenres, if_neg (by simp [hagg])]
    simp only [hg]
    have hex : getMoviesToExclude db uid =
        .ok (firstDedup
          (((db.ratings.filter (fun r => r.userID == uid)).map (fun r => r.movieID)) ++
            ((db.watchlists.filter (fun w => w.userID == uid)).map (fun w => w.movieID)))) := by
      rw [getMoviesToExclude]
      have hr : getRatedMovieIDs db uid =
          .ok ((db.ratings.filter (fun r => r.userID == uid)).map (fun r => r.movieID)) := by
        rw [getRatedMovieIDs, if_neg (by simp [hrat])]
      simp only [hr]
      have hw : getWatchlistMovieIDs db uid =
          .ok ((db.watchlists.filter (fun w => w.userID == uid)).map (fun w => w.movieID)) := by
        rw [getWatchlistMovieIDs, if_neg (by simp [hwat])]
      simp only [hw]
    simp only [hex]
    rw [assembledRecommendations, generateGenreBasedRecommendations,
      genreLoop_nonpos (le_of_lt hneg)]
    rw [if_neg (by simpa using not_lt.mpr (le_of_lt hneg)), limitResults,
      if_neg (by simpa using hneg), if_pos hneg]

/-- C9 witness: both amended behaviours at the counterexample's database. -/
theorem c9_witness :
    getRecommendations c9Db 1 0 = .ok [] ∧
    getRecommendations c9Db 1 (-3) = .error .sliceBoundsPanic :=
  ⟨c9_no_limit_validation.1 c9Db 1 rfl rfl rfl,
    c9_no_limit_validation.2 c9Db 1 (-3) (by decide) rfl rfl rfl⟩

/-! ## C10: genre preference computation -/

theorem countDesc_irrefl (a : String × Nat) : countDescBefore a a = false := by
  simp [countDescBefore]

theorem countDesc_trans {a b c : String × Nat} (h1 : countDescBefore a b = true)
    (h2 : countDescBefore b c = true) : countDescBefore a c = true := by
  simp only [countDescBefore, decide_eq_true_eq] at h1 h2 ⊢
  omega

/-- A database whose single qualifying rating points at a movie with genre
field "  Action ,Sci-Fi ," (the spec's normalization example): the two
tokens tie with one occurrence each. -/
def c10Db : Db :=
  { movies := [{ id := 1, imdbID := "tt1", genre := "  Action ,Sci-Fi ,",
                 imdbRating := "9.0" }],
    ratings := [{ userID := 1, movieID := 1, rating := 5 }] }

/-- The output contract MongoDB actually guarantees for stages 8-9 of the
`GetHighRatedGenres` pipeline: `$group` yields one row per distinct token
with its occurrence count, in an unspecified order, and `$sort: {count: -1}`
arranges the rows by descending count while leaving the relative order of
tied counts unspecified.  A result list is therefore admissible exactly when
it is a permutation of the distinct tokens that is weakly decreasing in
occurrence count. -/
def admissibleHighRatedResult (db : Db) (userID : Nat) (threshold : Int)
    (gs : List String) : Prop :=
  gs.Perm (firstDedup (genreTokens db userID threshold)) ∧
  gs.Pairwise (fun a b => (genreTokens db userID threshold).count b ≤
    (genreTokens db userID threshold).count a)

/-- C10 counterexample: on two genres tying at one occurrence each, the
reversed order ["Sci-Fi", "Action"] is an admissible output of the pipeline
(the uniqueness constraint `$sort` imposes concerns only counts), yet it
violates the claimed descending-count order with ties broken by
first-encounter position; so first-encounter tie-breaking is not a property
of the program. -/
theorem c10_counterexample :
    admissibleHighRatedResult c10Db 1 4 ["Sci-Fi", "Action"] ∧
    (genreTokens c10Db 1 4).count "Action" = (genreTokens c10Db 1 4).count "Sci-Fi" ∧
    firstPos "Action" (genreTokens c10Db 1 4) < firstPos "Sci-Fi" (genreTokens c10Db 1 4) ∧
    ¬ (["Sci-Fi", "Action"] : List String).Pairwise (fun a b =>
        (genreTokens c10Db 1 4).count b < (genreTokens c10Db 1 4).count a ∨
        ((genreTokens c10Db 1 4).count a = (genreTokens c10Db 1 4).count b ∧
          firstPos a (genreTokens c10Db 1 4) < firstPos b (genreTokens c10Db 1 4))) := by
  refine ⟨⟨?_, ?_⟩, by decide, by decide, ?_⟩
  · have h : firstDedup (genreTokens c10Db 1 4) = ["Action", "Sci-Fi"] := by decide
    rw [h]
    exact List.Perm.swap "Action" "Sci-Fi" []
  · refine List.pairwise_cons.mpr ⟨?_, List.pairwise_singleton _ _⟩
    intro b hb
    have hb2 : b = "Action" := by simpa using hb
    rw [hb2]
    decide
  · intro hpw
    have h1 := (List.pairwise_cons.mp hpw).1 "Action" (List.mem_cons_self _ _)
    exact absurd h1 (by decide)

theorem mem_groupCounts_snd {tk : List String} {p : String × Nat}
    (hp : p ∈ groupCounts tk) : p.2 = tk.count p.1 := by
  rw [groupCounts] at hp
  rcases List.mem_map.mp hp with ⟨g, _, he⟩
  rw [← he]

theorem groupCounts_map_fst (tk : List String) :
    (groupCounts tk).map Prod.fst = firstDedup tk := by
  rw [groupCounts, List.map_map]
  exact List.map_id _

/-- C10 amended: the modelled run of `GetHighRatedGenres` is one admissible
linearization of the pipeline contract; every admissible result consists of
exactly the distinct trimmed nonempty comma-tokens of the qualifying
ratings' genre fields, without duplicates, in weakly descending occurrence
count (no guarantee on the order of tied counts); and with no qualifying
ratings the pipeline returns an empty list without error. -/
theorem c10_count_order :
    (∀ (db : Db) (uid : Nat) (t : Int) (gs : List String),
      getHighRatedGenres db uid t = .ok gs →
      admissibleHighRatedResult db uid t gs) ∧
    (∀ (db : Db) (uid : Nat) (t : Int) (gs : List String),
      admissibleHighRatedResult db uid t gs →
      (∀ g, g ∈ gs ↔ g ∈ genreTokens db uid t) ∧ gs.Nodup) ∧
    (∀ (db : Db) (uid : Nat) (t : Int), db.failHighRatedAgg = false →
      db.ratings.filter (fun r => r.userID == uid && t ≤ r.rating) = [] →
      getHighRatedGenres db uid t = .ok []) := by
  refine ⟨?_, ?_, ?_⟩
  · intro db uid t gs h
    rw [getHighRatedGenres] at h
    by_cases hagg : db.failHighRatedAgg = true
    · rw [if_pos hagg] at h
      exact absurd h (by simp)
    · rw [if_neg hagg] at h
      have hgs : gs = (sortByStable countDescBefore
          (groupCounts (genreTokens db uid t))).map Prod.fst := (Except.ok.inj h).symm
      constructor
      · rw [hgs, ← groupCounts_map_fst]
        exact (sortByStable_perm _ _).map Prod.fst
      · rw [hgs, List.pairwise_map]
        refine List.Pairwise.imp_of_mem ?_
          (sortByStable_pairwise countDesc_irrefl
            (fun h1 h2 => countDesc_trans h1 h2) (groupCounts (genreTokens db uid t)))
        intro p q hp hq hr
        have hp2 := mem_groupCounts_snd (mem_sortByStable.mp hp)
        have hq2 := mem_groupCounts_snd (mem_sortByStable.mp hq)
        have hr2 : ¬ (p.2 < q.2) := by
          simpa [countDescBefore] using hr
        rw [← hp2, ← hq2]
        omega
  · rintro db uid t gs ⟨hperm, _⟩
    constructor
    · intro g
      rw [hperm.mem_iff, mem_firstDedup]
    · exact hperm.nodup_iff.mpr (nodup_firstDedup _)
  · intro db uid t hagg hq
    have htk : genreTokens db uid t = [] := by
      simp only [genreTokens, hq]
      rfl
    rw [getHighRatedGenres, if_neg (by simp [hagg]), htk]
    rfl

/-- C10 witness: the genre field "  Action ,Sci-Fi ," normalizes to the
token stream ["Action", "Sci-Fi"], the modelled run on it is admissible and
returns exactly those distinct tokens, and the no-qualifying-ratings part
instantiates on the empty database. -/
theorem c10_amended_witness :
    genreTokens c10Db 1 4 = ["Action", "Sci-Fi"] ∧
    admissibleHighRatedResult c10Db 1 4 ["Action", "Sci-Fi"] ∧
    ((∀ g, g ∈ ["Action", "Sci-Fi"] ↔ g ∈ genreTokens c10Db 1 4) ∧
      (["Action", "Sci-Fi"] : List String).Nodup) ∧
    getHighRatedGenres {} 1 4 = .ok [] :=
  ⟨by decide,
    c10_count_order.1 c10Db 1 4 ["Action", "Sci-Fi"] (by decide),
    c10_count_order.2.1 c10Db 1 4 ["Action", "Sci-Fi"]
      (c10_count_order.1 c10Db 1 4 ["Action", "Sci-Fi"] (by decide)),
    c10_count_order.2.2 {} 1 4 rfl (by decide)⟩
